import Mathlib

/-!
Verification of the bias-detection / alignment-scoring engine of the
qhacksproject repository: shallow embedding of `bias.js` (`computeBiases`,
`chartData`, `hasValidPL`), `metrics.js` (`computeUserMetrics`) and
`alignment.js` (`alignmentScore`) together with proofs of the spec claims.

Modelling conventions:
* JS numbers are embedded as exact rationals `ℚ` (the formulas of the spec
  and the code are stated over exact arithmetic; float rounding is not
  modelled).  Decimal literals such as `1.05`, `1.15`, `1e-9` denote the
  exact rationals `21/20`, `23/100 + 23/25`, `1/10^9`.
* A nullable / possibly-NaN JS value is `Option ℚ`: `none` stands for
  `null`, `undefined` or a non-finite number (`NaN`, `Infinity`), `some x`
  for a finite number.  In particular `undefined - x = NaN` is modelled by
  subtraction on `Option ℚ` returning `none` when an operand is `none`.
* A JS `Date` is its millisecond instant: `ts : Option ℤ`, `none` for an
  invalid date (`Number.isNaN(d.valueOf())`).
* `d.toISOString().slice(0, 10)` buckets an instant into its UTC calendar
  day; two instants get the same day string iff they have the same floor
  quotient by 86 400 000 ms, so the day key is modelled as `⌊ms / 86400000⌋`.
* `Math.round x` is `⌊x + 1/2⌋` (round half towards +∞), `Math.sqrt` is
  `Real.sqrt`.
-/

namespace QHacks

/-- JS `Math.round`: round half towards positive infinity. -/
def jsRound (x : ℚ) : ℤ := ⌊x + 1/2⌋

/-- JS `Math.round` on a real argument (used where `Math.sqrt` feeds it). -/
noncomputable def jsRoundR (x : ℝ) : ℤ := ⌊x + 1/2⌋

/-- `clamp(min, x, max) = Math.max(min, Math.min(max, x))` from bias.js,
specialised to the integer arguments it is called with. -/
def clampZ (lo x hi : ℤ) : ℤ := max lo (min hi x)

/-- `Number(x.toFixed(2))`: rounding to two decimal places (exact-rational
idealisation of the float-decimal conversion). -/
def toFixed2 (x : ℚ) : ℚ := (jsRound (x * 100) : ℚ) / 100

/-- `mean` from metrics.js: `xs.length ? sum / xs.length : 0`. -/
def mean (xs : List ℚ) : ℚ := if xs = [] then 0 else xs.sum / xs.length

/-- `median` from bias.js: sort ascending, take the middle element, or the
average of the two middle elements for even length (empty list gives 0). -/
def median (nums : List ℚ) : ℚ :=
  if nums = [] then 0
  else
    let arr := List.insertionSort (· ≤ ·) nums
    let mid := arr.length / 2
    if arr.length % 2 = 1 then arr.getD mid 0
    else (arr.getD (mid - 1) 0 + arr.getD mid 0) / 2

/-- `Math.max(...xs)` for the nonempty lists it is applied to. -/
def listMax (xs : List ℚ) : ℚ := xs.foldl max (xs.headD 0)

/-- Canonical Trade record (fetchTrades / upload normalisation output):
`tradeId`, millisecond timestamp (none = invalid date), side, asset,
quantity, notional and realized P/L. -/
structure Trade where
  tradeId : String
  ts : Option ℤ
  side : Option String
  asset : Option String
  qty : Option ℚ
  notional : Option ℚ
  pl : Option ℚ
deriving DecidableEq, Repr

/-- UTC day key of a trade: `t.ts.toISOString().slice(0,10)`, modelled as
the floor quotient of the millisecond instant by 86400000. -/
def dayOf (t : Trade) : Option ℤ := t.ts.map (fun ms => Int.fdiv ms 86400000)

/-- Distinct day keys in order of first occurrence (JS `Map` insertion
order), skipping trades with invalid `ts`. -/
def firstDays (trades : List Trade) : List ℤ :=
  trades.foldl
    (fun acc t =>
      match dayOf t with
      | none => acc
      | some d => if d ∈ acc then acc else acc ++ [d])
    []

/-- `byDay` from computeBiases: day key ↦ the trades of that day, in
insertion order of the keys. -/
def byDay (trades : List Trade) : List (ℤ × List Trade) :=
  (firstDays trades).map (fun d => (d, trades.filter (fun t => dayOf t = some d)))

/-- `tradesPerDay`: the bucket sizes of `byDay`. -/
def dayCounts (trades : List Trade) : List ℕ :=
  (byDay trades).map (fun p => p.2.length)

/-- `hasValidPL` from bias.js: SOME trade has a non-null finite `pl`. -/
def hasValidPLb (trades : List Trade) : Bool :=
  trades.any (fun t => t.pl.isSome)

/-- `minutesBetween(a, b) = Math.round((b - a) / 60000)`; `none` models the
NaN produced when either date is invalid. -/
def minutesBetween (a b : Option ℤ) : Option ℤ :=
  match a, b with
  | some x, some y => some (jsRound (((y - x : ℤ) : ℚ) / 60000))
  | _, _ => none

/-! ## computeBiases (bias.js) -/

/-- Overtrading evidence entry: single-day entries carry `rule`, multi-day
entries carry `baselineMedian`. -/
structure OverEvidence where
  day : ℤ
  dayTradeCount : ℕ
  baselineMedian : Option ℚ
  rule : Option String
deriving DecidableEq, Repr

/-- Revenge evidence entry pushed for each trigger. -/
structure RevengeEvidence where
  lossTradeId : String
  nextTradeId : String
  minutesAfterLoss : ℤ
  sizeUp : Bool
deriving DecidableEq, Repr

/-- Loss-aversion evidence entry (values rounded by `toFixed(2)`). -/
structure LossAversionEvidence where
  avgWin : ℚ
  avgLoss : ℚ
  lossWinRat : ℚ
deriving DecidableEq, Repr

structure OvertradingResult where
  score : ℤ
  evidence : List OverEvidence
deriving DecidableEq, Repr

structure RevengeResult where
  score : ℤ
  evidence : List RevengeEvidence
  insufficientData : Bool
deriving DecidableEq, Repr

structure LossAversionResult where
  score : ℤ
  evidence : List LossAversionEvidence
  insufficientData : Bool
deriving DecidableEq, Repr

structure BiasResult where
  overtrading : OvertradingResult
  revenge : RevengeResult
  lossAversion : LossAversionResult
deriving DecidableEq, Repr

/-- Section 1 of computeBiases (overtrading).  Mirrors the three branches on
`tradesPerDay.length`; the multi-day ratio is `maxDay / med` when `med > 0`
and `maxDay` otherwise, and evidence lists every day whose count reaches
`Math.ceil(med * 2)` (when `med > 0`). -/
def overtradingResult (trades : List Trade) : OvertradingResult :=
  let counts := dayCounts trades
  if counts.length = 0 then ⟨0, []⟩
  else if counts.length = 1 then
    let count := counts.headD 0
    ⟨clampZ 0 (jsRound ((count : ℚ) / 15 * 100)) 100,
     [⟨(firstDays trades).headD 0, count, none, some ("single-day volume heuristic")⟩]⟩
  else
    let med := median (counts.map (fun n : ℕ => (n : ℚ)))
    let maxDay := listMax (counts.map (fun n : ℕ => (n : ℚ)))
    let rat := if med > 0 then maxDay / med else maxDay
    let ev := (byDay trades).filterMap
      (fun p =>
        if med > 0 ∧ (p.2.length : ℤ) ≥ ⌈med * 2⌉ then
          some ⟨p.1, p.2.length, some med, none⟩
        else none)
    ⟨clampZ 0 (jsRound ((rat - 1) * 50)) 100, ev⟩

/-- Is the trade a loss trade (`Number.isFinite(t.pl) && t.pl < 0`)? -/
def isLoss (t : Trade) : Bool :=
  match t.pl with
  | some x => decide (x < 0)
  | none => false

/-- The `sizeUp` flag of a revenge evidence entry:
`t.notional != null && next.notional != null && next.notional > t.notional * 1.15`. -/
def sizeUpB (t next : Trade) : Bool :=
  match t.notional, next.notional with
  | some a, some b => decide (b > a * 1.15)
  | _, _ => false

/-- One step of the revenge loop: given a loss trade and the immediately
following trade, produce the evidence entry when the (rounded) minute gap is
at most 10.  An invalid date on either side gives NaN minutes, so no entry. -/
def revengeStep (t next : Trade) : Option RevengeEvidence :=
  match minutesBetween t.ts next.ts with
  | none => none
  | some m =>
      if m ≤ 10 then some ⟨t.tradeId, next.tradeId, m, sizeUpB t next⟩ else none

/-- The revenge evidence list: the source iterates over the loss trades with
their index `idx` and inspects `trades[idx + 1]`, which is exactly a scan of
the adjacent pairs of the sequence, keeping the pairs whose head is a loss
(a loss at the last position has no `next` and is skipped). -/
def revengeEvidenceList (trades : List Trade) : List RevengeEvidence :=
  (trades.zip trades.tail).filterMap
    (fun p => if isLoss p.1 then revengeStep p.1 p.2 else none)

/-- `losses.length` of the revenge section: number of loss trades. -/
def lossCount (trades : List Trade) : ℕ := trades.countP (fun t => isLoss t)

/-- Section 2 of computeBiases (revenge trading). -/
def revengeResult (trades : List Trade) : RevengeResult :=
  if hasValidPLb trades then
    let ev := revengeEvidenceList trades
    let triggers := ev.length
    -- `const lossCount = losses.length || 1`
    let lc : ℕ := if lossCount trades = 0 then 1 else lossCount trades
    let rate : ℚ := (triggers : ℚ) / (lc : ℚ)
    ⟨clampZ 0 (jsRound (rate * 100)) 100, ev, false⟩
  else ⟨0, [], true⟩

/-- `avgWin` of the loss-aversion section: mean of the positive `pl` values
(0 when there is none). -/
def avgWin (trades : List Trade) : ℚ :=
  let wins := trades.filterMap
    (fun t => t.pl.bind (fun x => if x > 0 then some x else none))
  if wins = [] then 0 else wins.sum / wins.length

/-- `avgLoss`: mean of the absolute values of the negative `pl` values
(0 when there is none). -/
def avgLoss (trades : List Trade) : ℚ :=
  let ls := trades.filterMap
    (fun t => t.pl.bind (fun x => if x < 0 then some |x| else none))
  if ls = [] then 0 else ls.sum / ls.length

/-- The loss/win ratio:
`avgWin > 0 ? avgLoss / avgWin : (avgLoss > 0 ? 999 : 0)`. -/
def laRat (trades : List Trade) : ℚ :=
  if avgWin trades > 0 then avgLoss trades / avgWin trades
  else if avgLoss trades > 0 then 999 else 0

/-- Section 3 of computeBiases (loss aversion), with the breakpoint chain on
the ratio exactly as in the source. -/
def lossAversionResult (trades : List Trade) : LossAversionResult :=
  if hasValidPLb trades then
    let rat := laRat trades
    let score : ℤ :=
      if rat ≤ 1.05 then 0
      else if rat ≤ 1.5 then 30
      else if rat ≤ 2.0 then 60
      else if rat ≤ 3.0 then 85
      else 100
    ⟨score,
     [⟨toFixed2 (avgWin trades), toFixed2 (avgLoss trades),
       toFixed2 (if avgWin trades > 0 then avgLoss trades / avgWin trades else 0)⟩],
     false⟩
  else ⟨0, [], true⟩

/-- `computeBiases` from bias.js: the three independent sub-analyses. -/
def computeBiases (trades : List Trade) : BiasResult :=
  ⟨overtradingResult trades, revengeResult trades, lossAversionResult trades⟩

/-! ## computeUserMetrics (metrics.js) -/

/-- `stddev` from metrics.js: 0 for fewer than two samples, otherwise the
square root of the population variance (divide by N). -/
noncomputable def stddev (xs : List ℚ) : ℝ :=
  if xs.length < 2 then 0
  else
    Real.sqrt ((((xs.map (fun x => (x - mean xs) * (x - mean xs))).sum / xs.length : ℚ) : ℝ))

/-- The day-count list of metrics.js (`byDay` there only stores counts; the
counts agree with the bucket sizes of bias.js's `byDay`). -/
def metricsDayCounts (trades : List Trade) : List ℕ := dayCounts trades

/-- `sizes`: notionals that are finite and positive. -/
def sizesOf (trades : List Trade) : List ℚ :=
  trades.filterMap (fun t => t.notional.bind (fun x => if x > 0 then some x else none))

/-- `plNums`: the finite `pl` values of the sequence. -/
def plNums (trades : List Trade) : List ℚ := trades.filterMap (fun t => t.pl)

/-- The loop of the `pct_trades_after_loss` section: over all trades but the
last, skip non-finite `pl`, and on `pl < 0` bump both `lossCount` and
`afterLossCount`.  State is `(lossCount, afterLossCount)`. -/
def pctLoopCounters (trades : List Trade) : ℕ × ℕ :=
  trades.dropLast.foldl
    (fun st t =>
      match t.pl with
      | some x => if x < 0 then (st.1 + 1, st.2 + 1) else st
      | none => st)
    (0, 0)

/-- `pct_trades_after_loss`: null unless at least two trades carry finite
`pl`; otherwise `lossCount ? afterLossCount / (trades.length - 1) : 0`. -/
def pctTradesAfterLoss (trades : List Trade) : Option ℚ :=
  if (plNums trades).length ≥ 2 then
    let st := pctLoopCounters trades
    some (if st.1 = 0 then 0 else (st.2 : ℚ) / ((trades.length : ℚ) - 1))
  else none

/-- An open FIFO lot: purchase instant and remaining quantity. -/
structure Lot where
  ts : ℤ
  qty : ℚ
deriving DecidableEq, Repr

/-- The inner `while (remaining > 0 && queue.length)` loop of the SELL
branch: pop quantity from the oldest lot, pushing one holding-period sample
`(sellTs - lot.ts)` in days per iteration; a lot drained to `≤ 1e-9` is
shifted off.  In the branch where the lot survives, `used = remaining`
(otherwise the lot would have been drained), so the JS loop exits there with
`remaining = 0` and the queue is returned as is. -/
def consumeLots (sellTs : ℤ) (remaining : ℚ) (queue : List Lot) (holds : List ℚ) :
    List Lot × List ℚ :=
  match queue with
  | [] => ([], holds)
  | lot :: rest =>
      if remaining ≤ 0 then (lot :: rest, holds)
      else
        let used := min remaining lot.qty
        let days : ℚ := ((sellTs - lot.ts : ℤ) : ℚ) / 86400000
        let holds2 := holds ++ [days]
        let newQty := lot.qty - used
        if newQty ≤ 1/1000000000 then consumeLots sellTs (remaining - used) rest holds2
        else (⟨lot.ts, newQty⟩ :: rest, holds2)

/-- Append a fresh lot to the per-asset queue (`lots.get(asset).push(...)`,
creating the entry when absent). -/
def lotsPush (lots : List (String × List Lot)) (asset : String) (lot : Lot) :
    List (String × List Lot) :=
  match lots with
  | [] => [(asset, [lot])]
  | (a, q) :: rest =>
      if a = asset then (a, q ++ [lot]) :: rest else (a, q) :: lotsPush rest asset lot

/-- Replace the queue of an asset that is present in the map. -/
def lotsSet (lots : List (String × List Lot)) (asset : String) (q2 : List Lot) :
    List (String × List Lot) :=
  match lots with
  | [] => []
  | (a, q) :: rest =>
      if a = asset then (a, q2) :: rest else (a, q) :: lotsSet rest asset q2

/-- One iteration of the FIFO holding-period loop over the trade sequence,
with the guards of the source: invalid `ts`, missing/empty `asset` (an empty
string is falsy in JS) or non-positive `qty` skip the trade; BUY pushes a
lot; SELL consumes from the asset's queue (a SELL with no queue touches the
fresh empty array `lots.get(asset) ?? []`, so it leaves the state alone). -/
def holdStep (st : List (String × List Lot) × List ℚ) (t : Trade) :
    List (String × List Lot) × List ℚ :=
  let side := (t.side.getD ("")).toUpper
  match t.ts with
  | none => st
  | some ts =>
      match t.asset with
      | none => st
      | some asset =>
          if asset = "" then st
          else
            match t.qty with
            | none => st
            | some qty =>
                if qty ≤ 0 then st
                else if side = "BUY" then (lotsPush st.1 asset ⟨ts, qty⟩, st.2)
                else if side = "SELL" then
                  match List.lookup asset st.1 with
                  | none => st
                  | some q =>
                      let r := consumeLots ts qty q st.2
                      (lotsSet st.1 asset r.1, r.2)
                else st

/-- The holding-period samples collected by the FIFO loop. -/
def fifoHolds (trades : List Trade) : List ℚ :=
  (trades.foldl holdStep ([], [])).2

/-- `hasSell`: some trade whose uppercased side is `SELL`. -/
def hasSellb (trades : List Trade) : Bool :=
  trades.any (fun t => (t.side.getD ("")).toUpper == "SELL")

/-- `avg_holding_period_days`: only computed when a SELL exists, and only
set when at least one sample was collected. -/
def avgHoldingOf (trades : List Trade) : Option ℚ :=
  if hasSellb trades then
    let h := fifoHolds trades
    if h = [] then none else some (mean h)
  else none

/-- `UserMetrics` output record of computeUserMetrics.  The always-numeric
fields are plain numbers; the two unmeasurable-capable fields are options. -/
structure UserMetrics where
  trade_frequency : ℚ
  avg_trade_size : ℚ
  trade_size_variability : ℝ
  pct_trades_after_loss : Option ℚ
  avg_holding_period_days : Option ℚ

/-- `computeUserMetrics` from metrics.js. -/
noncomputable def computeUserMetrics (trades : List Trade) : UserMetrics :=
  { trade_frequency := mean ((metricsDayCounts trades).map (fun n : ℕ => (n : ℚ)))
    avg_trade_size := mean (sizesOf trades)
    trade_size_variability := stddev (sizesOf trades)
    pct_trades_after_loss := pctTradesAfterLoss trades
    avg_holding_period_days := avgHoldingOf trades }

/-! ## chartData (bias.js) -/

/-- `Number(x) || 0` on a nullable value: `null`/`NaN`/`0` all give 0. -/
def jsNumOr0 (o : Option ℚ) : ℚ := o.getD 0

/-- The per-trade value of the chart: `pl` when `hasPL`, else `notional`. -/
def chartValue (hasPL : Bool) (t : Trade) : ℚ :=
  if hasPL then jsNumOr0 t.pl else jsNumOr0 t.notional

/-- A point of the cumulative series: instant and running-sum value. -/
structure CumPoint where
  ts : ℤ
  value : ℚ
deriving DecidableEq, Repr

/-- A point of the per-trade timeline.  The source calls
`new Date(t.ts).toISOString()` on every trade, so we carry the raw instant. -/
structure TimelinePoint where
  ts : Option ℤ
  value : ℚ
  asset : Option String
  side : Option String
deriving DecidableEq, Repr

/-- Running sums: `cumulative += v; push cumulative`. -/
def runningSums (vals : List ℚ) : List ℚ :=
  (vals.foldl (fun st v => (st.1 + v, st.2 ++ [st.1 + v])) ((0 : ℚ), [])).2

/-- The trades of the cumulative series: valid-`ts` trades, stably sorted
ascending by instant (`sort((a, b) => new Date(a.ts) - new Date(b.ts))`). -/
def sortedValid (trades : List Trade) : List Trade :=
  List.insertionSort (fun a b => a.ts.getD 0 ≤ b.ts.getD 0)
    (trades.filter (fun t => t.ts.isSome))

/-- Output record of `chartData`. -/
structure ChartData where
  tradesPerDay : List (ℤ × ℕ)
  hasPL : Bool
  cumulativeLabel : String
  timelineLabel : String
  cumulativeSeries : List CumPoint
  timeline : List TimelinePoint
deriving DecidableEq, Repr

/-- `chartData` from bias.js. -/
def chartData (trades : List Trade) : ChartData :=
  let hasPL := hasValidPLb trades
  let sorted := sortedValid trades
  let vals := runningSums (sorted.map (chartValue hasPL))
  { tradesPerDay :=
      (List.insertionSort (fun a b => a ≤ b) (firstDays trades)).map
        (fun d => (d, (trades.filter (fun t => dayOf t = some d)).length))
    hasPL := hasPL
    cumulativeLabel := if hasPL then ("Cumulative P/L") else ("Cumulative Trade Value")
    timelineLabel := if hasPL then ("Trade P/L") else ("Trade Value")
    cumulativeSeries :=
      (sorted.zip vals).map (fun p => ⟨p.1.ts.getD 0, toFixed2 p.2⟩)
    timeline := trades.map (fun t => ⟨t.ts, chartValue hasPL t, t.asset, t.side⟩) }

/-! ## alignmentScore (alignment.js) -/

/-- A style vector over the fixed key set; a `none` field models a missing
key of the JS object. -/
structure Vec where
  trade_frequency : Option ℚ
  holding_patience : Option ℚ
  risk_reactivity : Option ℚ
  consistency : Option ℚ
deriving DecidableEq, Repr

/-- Subtraction of possibly-missing JS numbers: `undefined - x = NaN`,
modelled by `none`. -/
def jsSub (a b : Option ℚ) : Option ℚ :=
  match a, b with
  | some x, some y => some (x - y)
  | _, _ => none

/-- One `gaps` entry: raw user and target values and their raw difference
(the source does NOT apply the `?? 0` default here). -/
structure Gap where
  dim : String
  user : Option ℚ
  target : Option ℚ
  diff : Option ℚ
deriving DecidableEq, Repr

/-- `sumSq` of alignmentScore: over the four keys, `(a - b)^2` with
`a = Number(userVec[k] ?? 0)` and `b = Number(iv[k] ?? 0)`. -/
def alignSumSq (u v : Vec) : ℚ :=
  (u.trade_frequency.getD 0 - v.trade_frequency.getD 0) *
      (u.trade_frequency.getD 0 - v.trade_frequency.getD 0) +
    (u.holding_patience.getD 0 - v.holding_patience.getD 0) *
      (u.holding_patience.getD 0 - v.holding_patience.getD 0) +
    (u.risk_reactivity.getD 0 - v.risk_reactivity.getD 0) *
      (u.risk_reactivity.getD 0 - v.risk_reactivity.getD 0) +
    (u.consistency.getD 0 - v.consistency.getD 0) *
      (u.consistency.getD 0 - v.consistency.getD 0)

/-- `score = Math.round((1 - Math.min(1, Math.sqrt(sumSq / 4))) * 100)`. -/
noncomputable def alignScoreVal (u v : Vec) : ℤ :=
  jsRoundR ((1 - min 1 (Real.sqrt ((alignSumSq u v / 4 : ℚ) : ℝ))) * 100)

/-- The `gaps` array, in the fixed key order. -/
def alignGaps (u v : Vec) : List Gap :=
  [⟨"trade_frequency", u.trade_frequency, v.trade_frequency,
      jsSub u.trade_frequency v.trade_frequency⟩,
   ⟨"holding_patience", u.holding_patience, v.holding_patience,
      jsSub u.holding_patience v.holding_patience⟩,
   ⟨"risk_reactivity", u.risk_reactivity, v.risk_reactivity,
      jsSub u.risk_reactivity v.risk_reactivity⟩,
   ⟨"consistency", u.consistency, v.consistency,
      jsSub u.consistency v.consistency⟩]

/-- Output record of `alignmentScore`. -/
structure AlignmentResult where
  score : ℤ
  gaps : List Gap

/-- `alignmentScore` from alignment.js. -/
noncomputable def alignmentScore (u v : Vec) : AlignmentResult :=
  ⟨alignScoreVal u v, alignGaps u v⟩

/-! ## Spec-side definitions (phrased from the claims, for comparison) -/

/-- Claim C1's step function on the loss/win ratio:
`ratio ≤ 1.05 → 0, ≤ 1.5 → 30, ≤ 2.0 → 60, ≤ 3.0 → 85, otherwise 100`. -/
def laStep (r : ℚ) : ℤ :=
  if r ≤ 1.05 then 0
  else if r ≤ 1.5 then 30
  else if r ≤ 2.0 then 60
  else if r ≤ 3.0 then 85
  else 100

/-- Claim C2's overtrading score: cases on the number of day buckets, with
`ratio = maxDayCount / median` (or `maxDayCount` itself if the median is 0). -/
def specOvertradingScore (trades : List Trade) : ℤ :=
  if (dayCounts trades).length = 0 then 0
  else if (dayCounts trades).length = 1 then
    clampZ 0 (jsRound (((dayCounts trades).headD 0 : ℚ) / 15 * 100)) 100
  else
    let med := median ((dayCounts trades).map (fun n : ℕ => (n : ℚ)))
    let maxDay := listMax ((dayCounts trades).map (fun n : ℕ => (n : ℚ)))
    let rat := if med = 0 then maxDay else maxDay / med
    clampZ 0 (jsRound ((rat - 1) * 50)) 100

/-- Gap of at most 10 (rounded) minutes between two trades. -/
def gapLE10b (a b : Trade) : Bool :=
  match minutesBetween a.ts b.ts with
  | some m => decide (m ≤ 10)
  | none => false

/-- Claim C3's triggers: adjacent pairs whose head is a loss trade and whose
immediately following trade occurs within at most 10 minutes. -/
def specTriggerPairs (trades : List Trade) : List (Trade × Trade) :=
  (trades.zip trades.tail).filter (fun p => isLoss p.1 && gapLE10b p.1 p.2)

/-- Claim C3's size-up condition: both notionals are present and the next
trade's notional exceeds the loss trade's notional by more than 15 %. -/
def specSizeUp (a b : Trade) : Bool :=
  match a.notional, b.notional with
  | some x, some y => decide (y > x * 1.15)
  | _, _ => false

/-- Claim C3's evidence: one entry per trigger, with `sizeUp = true` exactly
when the next trade's notional exceeds the loss trade's notional by more
than 15 %. -/
def specRevengeEvidence (trades : List Trade) : List RevengeEvidence :=
  (specTriggerPairs trades).map
    (fun p =>
      ⟨p.1.tradeId, p.2.tradeId, (minutesBetween p.1.ts p.2.ts).getD 0, specSizeUp p.1 p.2⟩)

/-- Claim C4's mean of the four squared per-key differences (missing key
read as 0). -/
def specSumSqMean (u v : Vec) : ℚ :=
  ((u.trade_frequency.getD 0 - v.trade_frequency.getD 0) ^ 2 +
      (u.holding_patience.getD 0 - v.holding_patience.getD 0) ^ 2 +
      (u.risk_reactivity.getD 0 - v.risk_reactivity.getD 0) ^ 2 +
      (u.consistency.getD 0 - v.consistency.getD 0) ^ 2) / 4

/-- Does the notional qualify for the size statistics (finite and > 0)? -/
def posNotionalb (t : Trade) : Bool :=
  match t.notional with
  | some x => decide (0 < x)
  | none => false

/-- Number of loss trades among all positions except the last (claim C6). -/
def lossesButLast (trades : List Trade) : ℕ :=
  trades.dropLast.countP (fun t => isLoss t)

/-- All four keys of a style vector are present. -/
def vecFull (u : Vec) : Bool :=
  u.trade_frequency.isSome && u.holding_patience.isSome &&
    u.risk_reactivity.isSome && u.consistency.isSome

/-! ## Concrete inputs used by the examples, witnesses and counterexamples -/

/-- A bare trade with a valid timestamp and nothing else. -/
def mkT (id : String) (ts : ℤ) : Trade := ⟨id, some ts, none, none, none, none, none⟩

/-- A trade with a valid timestamp and a realized P/L. -/
def mkPL (id : String) (ts : ℤ) (pl : ℚ) : Trade :=
  ⟨id, some ts, none, none, none, none, some pl⟩

/-- One loss of 3 and one win of 2: `avgLoss/avgWin = 1.5`. -/
def laTrades : List Trade := [mkPL ("w") 0 2, mkPL ("l") 60000 (-3)]

/-- `n` trades on UTC day `d` (one second apart). -/
def sameDayTrades (d : ℤ) (n : ℕ) : List Trade :=
  (List.range n).map (fun i => mkT (toString i) (d * 86400000 + i * 1000))

/-- Two trades on day 0 and ten trades on day 1: per-day counts [2, 10]. -/
def ex2and10 : List Trade := sameDayTrades 0 2 ++ sameDayTrades 1 10

/-- BUY 10 units of X at day 0, SELL 10 units at day 5. -/
def hpEx1 : List Trade :=
  [⟨"b", some 0, some ("BUY"), some ("X"), some 10, none, none⟩,
   ⟨"s", some (5 * 86400000), some ("SELL"), some ("X"), some 10, none, none⟩]

/-- BUY 10 units of X at day 0, SELL 4 units at day 2, SELL 6 at day 5. -/
def hpEx2 : List Trade :=
  [⟨"b", some 0, some ("BUY"), some ("X"), some 10, none, none⟩,
   ⟨"s1", some (2 * 86400000), some ("SELL"), some ("X"), some 4, none, none⟩,
   ⟨"s2", some (5 * 86400000), some ("SELL"), some ("X"), some 6, none, none⟩]

/-- A SELL with no BUY before it: one sell side trade, no sample. -/
def sellNoBuyEx : List Trade :=
  [⟨"s", some 0, some ("SELL"), some ("X"), some 3, none, none⟩]

/-- A single BUY: no SELL-side trade at all. -/
def noSellEx : List Trade :=
  [⟨"b", some 0, some ("BUY"), some ("X"), some 3, none, none⟩]

/-- Two BUY lots of X (day 0 and day 10) and one SELL (day 20). -/
def buyA : Trade := ⟨"a", some 0, some ("BUY"), some ("X"), some 1, none, none⟩

def buyB : Trade := ⟨"b", some (10 * 86400000), some ("BUY"), some ("X"), some 1, none, none⟩

def sellC : Trade := ⟨"c", some (20 * 86400000), some ("SELL"), some ("X"), some 1, none, none⟩

/-- ts-ascending ordering: FIFO matches the day-0 lot, sample 20 days. -/
def permHold1 : List Trade := [buyA, buyB, sellC]

/-- The two BUY lots swapped: FIFO matches the day-10 lot, sample 10 days. -/
def permHold2 : List Trade := [buyB, buyA, sellC]

/-- A loss trade at t = 0. -/
def lossT : Trade := ⟨"l", some 0, none, none, none, some 100, some (-5)⟩

/-- A trade 5 minutes after t = 0. -/
def quickT : Trade := ⟨"q", some 300000, none, none, none, some 50, none⟩

/-- A trade 60 minutes after t = 0. -/
def lateT : Trade := ⟨"t", some 3600000, none, none, none, none, none⟩

/-- ts-ascending ordering: the loss is followed within 5 minutes. -/
def permRev1 : List Trade := [lossT, quickT, lateT]

/-- Reordered: the trade following the loss is 60 minutes later. -/
def permRev2 : List Trade := [lossT, lateT, quickT]

/-- Three trades of which only the first carries a P/L (a minority). -/
def trades9 : List Trade :=
  [⟨"1", some 0, none, none, none, some 100, some 5⟩,
   ⟨"2", some 60000, none, none, none, some 7, none⟩,
   ⟨"3", some 120000, none, none, none, some 9, none⟩]

/-- A vector missing its `trade_frequency` key. -/
def vecMissTF : Vec := ⟨none, some 0, some 0, some 0⟩

/-- The all-zero vector (all keys present). -/
def vecZ : Vec := ⟨some 0, some 0, some 0, some 0⟩

/-- The all-one vector (all keys present). -/
def vecOne : Vec := ⟨some 1, some 1, some 1, some 1⟩

/-- One trade with a negative notional and one with none: no positive
finite notional anywhere. -/
def noPosEx : List Trade :=
  [⟨"n", some 0, none, none, none, some (-3), none⟩, mkT ("m") 60000]

/-- Exactly one trade with a positive finite notional. -/
def onePosEx : List Trade :=
  [⟨"p", some 0, none, none, none, some 5, none⟩,
   ⟨"n", some 60000, none, none, none, some (-3), none⟩]

/-! ## Helper lemmas -/

theorem getD_nonneg (l : List ℚ) (h : ∀ x ∈ l, 0 ≤ x) (i : ℕ) : 0 ≤ l.getD i 0 := by
  rcases lt_or_ge i l.length with hi | hi
  · rw [List.getD_eq_getElem l 0 hi]
    exact h _ (List.getElem_mem hi)
  · rw [List.getD_eq_default l 0 hi]

theorem median_nonneg {l : List ℚ} (h : ∀ x ∈ l, 0 ≤ x) : 0 ≤ median l := by
  have hmem : ∀ x ∈ List.insertionSort (· ≤ ·) l, 0 ≤ x := fun x hx =>
    h x ((List.perm_insertionSort (· ≤ ·) l).mem_iff.mp hx)
  by_cases h0 : l = []
  · simp [median, h0]
  · by_cases h1 : (List.insertionSort (· ≤ ·) l).length % 2 = 1
    · simp only [median, h0, if_false, h1, if_true]
      exact getD_nonneg _ hmem _
    · simp only [median, h0, if_false, h1]
      have ha := getD_nonneg _ hmem ((List.insertionSort (· ≤ ·) l).length / 2 - 1)
      have hb := getD_nonneg _ hmem ((List.insertionSort (· ≤ ·) l).length / 2)
      linarith

theorem filterMap_eq_filter_map {α β : Type} {p : α → Bool} {f : α → β} {g : α → Option β}
    (hsome : ∀ x, p x = true → g x = some (f x))
    (hnone : ∀ x, p x = false → g x = none) :
    ∀ l : List α, l.filterMap g = (l.filter p).map f := by
  intro l
  induction l with
  | nil => rfl
  | cons x l ih =>
      rw [List.filterMap_cons, List.filter_cons]
      cases hx : p x with
      | true => rw [hsome x hx]; simp [hx, ih]
      | false => rw [hnone x hx]; simp [hx, ih]

theorem sizeUpB_eq_spec (a b : Trade) : sizeUpB a b = specSizeUp a b := rfl

theorem natIfZero_eq_max (n : ℕ) : (if n = 0 then 1 else n) = max 1 n := by
  cases n with
  | zero => rfl
  | succ k => simp [Nat.max_eq_right (Nat.succ_le_succ (Nat.zero_le k))]

theorem revengeEvidence_eq_spec (trades : List Trade) :
    revengeEvidenceList trades = specRevengeEvidence trades := by
  unfold revengeEvidenceList specRevengeEvidence specTriggerPairs
  refine filterMap_eq_filter_map ?_ ?_ (trades.zip trades.tail)
  · rintro ⟨a, b⟩ hpq
    simp only [Bool.and_eq_true] at hpq
    obtain ⟨hl, hg⟩ := hpq
    simp only [hl, if_true]
    unfold revengeStep
    unfold gapLE10b at hg
    cases hmb : minutesBetween a.ts b.ts with
    | none => rw [hmb] at hg; cases hg
    | some m =>
        rw [hmb] at hg
        simp only [decide_eq_true_eq] at hg
        simp only [hg, if_true]
        rw [sizeUpB_eq_spec]
        simp [hmb]
  · rintro ⟨a, b⟩ hpq
    cases hl : isLoss a with
    | false => simp [hl]
    | true =>
        rw [hl] at hpq
        simp only [Bool.true_and] at hpq
        simp only [hl, if_true]
        unfold revengeStep
        unfold gapLE10b at hpq
        cases hmb : minutesBetween a.ts b.ts with
        | none => rfl
        | some m =>
            rw [hmb] at hpq
            simp only [decide_eq_false_iff_not] at hpq
            simp [hpq]

/-- Claim C1: for every trade sequence containing at least one trade with
finite `pl`, `computeBiases` returns a loss-aversion score that is exactly
the step function `laStep` (ratio ≤ 1.05 → 0, ≤ 1.5 → 30, ≤ 2.0 → 60,
≤ 3.0 → 85, else 100) applied to the ratio `avgLoss/avgWin` (999 when
avgWin = 0 < avgLoss, 0 when avgLoss = 0), with `insufficientData = false`;
in particular ratio 1.5 gives 30, ratio 2.5 gives 85 and ratio 10 gives
100. -/
theorem claim_C1 :
    (∀ trades : List Trade, hasValidPLb trades = true →
      (computeBiases trades).lossAversion.score = laStep (laRat trades) ∧
      (computeBiases trades).lossAversion.insufficientData = false) ∧
    laStep 1.5 = 30 ∧ laStep 2.5 = 85 ∧ laStep 10 = 100 := by
  refine ⟨fun trades h => ⟨?_, ?_⟩,
    by with_unfolding_all decide, by with_unfolding_all decide, by with_unfolding_all decide⟩
  · show (lossAversionResult trades).score = laStep (laRat trades)
    simp only [lossAversionResult, h, if_true]
    rfl
  · show (lossAversionResult trades).insufficientData = false
    simp [lossAversionResult, h]

/-- Witness for C1: a concrete sequence with one win of 2 and one loss of 3
satisfies the hypothesis, and its loss-aversion score is the step function
of its ratio. -/
theorem claim_C1_witness :
    hasValidPLb laTrades = true ∧
      (computeBiases laTrades).lossAversion.score = laStep (laRat laTrades) :=
  ⟨by decide, (claim_C1.1 laTrades (by decide)).1⟩

/-- Claim C2: for every trade sequence the overtrading score is 0 with no
valid day bucket, `clamp(0, round(count/15*100), 100)` with a single UTC
day of `count` trades, and `clamp(0, round((ratio-1)*50), 100)` with ≥ 2
day buckets where `ratio = maxDayCount/median` (or `maxDayCount` if the
median is 0); concretely 5 single-day trades score 33, 15 score 100, 30
clamp to 100, and per-day counts [2, 10] score 33. -/
theorem claim_C2 :
    (∀ trades : List Trade,
      (computeBiases trades).overtrading.score = specOvertradingScore trades) ∧
    (computeBiases (sameDayTrades 0 5)).overtrading.score = 33 ∧
    (computeBiases (sameDayTrades 0 15)).overtrading.score = 100 ∧
    (computeBiases (sameDayTrades 0 30)).overtrading.score = 100 ∧
    dayCounts ex2and10 = [2, 10] ∧
    (computeBiases ex2and10).overtrading.score = 33 := by
  refine ⟨fun trades => ?_, by with_unfolding_all decide, by with_unfolding_all decide,
    by with_unfolding_all decide, by decide, by with_unfolding_all decide⟩
  show (overtradingResult trades).score = specOvertradingScore trades
  by_cases h0 : (dayCounts trades).length = 0
  · simp [overtradingResult, specOvertradingScore, h0]
  · by_cases h1 : (dayCounts trades).length = 1
    · simp [overtradingResult, specOvertradingScore, h0, h1]
    · have hnn : 0 ≤ median ((dayCounts trades).map (fun n : ℕ => (n : ℚ))) := by
        refine median_nonneg ?_
        intro x hx
        simp only [List.mem_map] at hx
        obtain ⟨n, _, rfl⟩ := hx
        positivity
      by_cases hm : median ((dayCounts trades).map (fun n : ℕ => (n : ℚ))) = 0
      · have hnl : ¬ (0 < median ((dayCounts trades).map (fun n : ℕ => (n : ℚ)))) := by
          rw [hm]
          exact lt_irrefl 0
        simp [overtradingResult, specOvertradingScore, h0, h1, hm, hnl]
      · have hpos : 0 < median ((dayCounts trades).map (fun n : ℕ => (n : ℚ))) :=
          lt_of_le_of_ne hnn (Ne.symm hm)
        simp [overtradingResult, specOvertradingScore, h0, h1, hm, hpos]

/-- Claim C3: `computeBiases` returns `revenge.insufficientData = true` and
score 0 exactly when no trade has finite `pl`, regardless of timing;
otherwise `insufficientData = false`, the score is
`clamp(0, round(triggers/max(1, lossCount)*100), 100)` where a trigger is a
loss trade whose immediately following trade occurs within at most 10
(rounded) minutes, and each trigger's evidence records `sizeUp = true`
exactly when the next trade's notional exceeds the loss trade's notional by
more than 15 %. -/
theorem claim_C3 : ∀ trades : List Trade,
    (computeBiases trades).revenge.insufficientData = !hasValidPLb trades ∧
    (computeBiases trades).revenge.evidence =
      (if hasValidPLb trades then specRevengeEvidence trades else []) ∧
    (computeBiases trades).revenge.score =
      (if hasValidPLb trades then
        clampZ 0
          (jsRound
            (((specTriggerPairs trades).length : ℚ) / ((max 1 (lossCount trades) : ℕ) : ℚ) * 100))
          100
       else 0) := by
  intro trades
  cases h : hasValidPLb trades with
  | false =>
      refine ⟨?_, ?_, ?_⟩ <;> simp [computeBiases, revengeResult, h]
  | true =>
      refine ⟨?_, ?_, ?_⟩
      · show (revengeResult trades).insufficientData = _
        simp [revengeResult, h]
      · show (revengeResult trades).evidence = _
        simp [revengeResult, h, revengeEvidence_eq_spec]
      · show (revengeResult trades).score = _
        simp only [revengeResult, h, if_true]
        rw [revengeEvidence_eq_spec, specRevengeEvidence, List.length_map, natIfZero_eq_max]

/-- Claim C4: for every pair of vectors over the fixed key set (missing key
read as 0), `alignmentScore` returns `round((1 - min(1, rms)) * 100)` where
`rms` is the square root of the mean of the four squared per-key
differences; identical vectors give score 100 (with every gap diff 0 when
all keys are present), and the all-zero vector against the all-one vector
gives score 0. -/
theorem claim_C4 :
    (∀ u v : Vec, (alignmentScore u v).score =
      jsRoundR ((1 - min 1 (Real.sqrt ((specSumSqMean u v : ℚ) : ℝ))) * 100)) ∧
    (∀ u : Vec, (alignmentScore u u).score = 100) ∧
    (∀ u : Vec, vecFull u = true →
      (alignmentScore u u).gaps.map Gap.diff = [some 0, some 0, some 0, some 0]) ∧
    (alignmentScore vecZ vecOne).score = 0 := by
  refine ⟨?_, ?_, ?_, ?_⟩
  · intro u v
    have h : alignSumSq u v / 4 = specSumSqMean u v := by
      unfold alignSumSq specSumSqMean
      ring
    show jsRoundR ((1 - min 1 (Real.sqrt ((alignSumSq u v / 4 : ℚ) : ℝ))) * 100) = _
    rw [h]
  · intro u
    have h0 : alignSumSq u u = 0 := by
      unfold alignSumSq
      ring
    show jsRoundR ((1 - min 1 (Real.sqrt ((alignSumSq u u / 4 : ℚ) : ℝ))) * 100) = 100
    rw [h0]
    norm_num [jsRoundR, Int.floor_eq_iff]
  · intro u hu
    unfold vecFull at hu
    simp only [Bool.and_eq_true, Option.isSome_iff_exists] at hu
    obtain ⟨⟨⟨⟨a, ha⟩, ⟨b, hb⟩⟩, ⟨c, hc⟩⟩, ⟨d, hd⟩⟩ := hu
    show (alignGaps u u).map Gap.diff = _
    simp [alignGaps, jsSub, ha, hb, hc, hd]
  · have h4 : alignSumSq vecZ vecOne = 4 := by
      unfold alignSumSq vecZ vecOne
      norm_num
    show jsRoundR ((1 - min 1 (Real.sqrt ((alignSumSq vecZ vecOne / 4 : ℚ) : ℝ))) * 100) = 0
    rw [h4]
    norm_num [jsRoundR, Int.floor_eq_iff]

/-- Witness for C4: the all-zero vector is full, so the gap diffs of its
self-alignment are all 0. -/
theorem claim_C4_witness :
    (alignmentScore vecZ vecZ).gaps.map Gap.diff = [some 0, some 0, some 0, some 0] :=
  claim_C4.2.2.1 vecZ (by decide)

/-- Claim C5: `computeUserMetrics` returns `avg_holding_period_days = none`
unless at least one SELL-side trade exists; otherwise it is the mean of the
FIFO holding-period samples (a SELL at an empty queue contributes no sample
and raises no error); a BUY of qty 10 fully consumed 5 days later by one
SELL of qty 10 yields exactly the sample list [5], and the same BUY consumed
by SELLs of qty 4 (day 2) and qty 6 (day 5) yields [2, 5] — two samples both
measured from the BUY's timestamp. -/
theorem claim_C5 :
    (∀ trades : List Trade, hasSellb trades = false →
      (computeUserMetrics trades).avg_holding_period_days = none) ∧
    (computeUserMetrics hpEx1).avg_holding_period_days = some 5 ∧
    fifoHolds hpEx1 = [5] ∧
    fifoHolds hpEx2 = [2, 5] ∧
    (computeUserMetrics hpEx2).avg_holding_period_days = some (7/2) ∧
    (computeUserMetrics sellNoBuyEx).avg_holding_period_days = none := by
  refine ⟨fun trades h => ?_, ?_, ?_, ?_, ?_, ?_⟩
  · show avgHoldingOf trades = none
    simp [avgHoldingOf, h]
  all_goals with_unfolding_all decide

/-- Witness for C5: a single BUY has no SELL-side trade, so the holding
period is null. -/
theorem claim_C5_witness :
    (computeUserMetrics noSellEx).avg_holding_period_days = none :=
  claim_C5.1 noSellEx (by with_unfolding_all decide)

theorem pctLoop_lockstep : ∀ (l : List Trade) (a b : ℕ),
    l.foldl
        (fun st t =>
          match t.pl with
          | some x => if x < 0 then (st.1 + 1, st.2 + 1) else st
          | none => st)
        (a, b) =
      (a + l.countP (fun t => isLoss t), b + l.countP (fun t => isLoss t)) := by
  intro l
  induction l with
  | nil => intro a b; simp
  | cons t l ih =>
      intro a b
      cases hpl : t.pl with
      | none => simp [hpl, List.countP_cons, isLoss, ih]
      | some x =>
          by_cases hx : x < 0
          · simp [hpl, hx, isLoss, ih, List.countP_cons]
            omega
          · simp [hpl, hx, isLoss, ih, List.countP_cons]

/-- Claim C6: `pct_trades_after_loss` is null when fewer than 2 trades have
finite `pl`, and otherwise equals the number of finite-`pl` losses among all
positions except the last divided by `trades.length - 1`, the length of the
original unfiltered input array. -/
theorem claim_C6 : ∀ trades : List Trade,
    (computeUserMetrics trades).pct_trades_after_loss =
      (if (plNums trades).length ≥ 2 then
        some ((lossesButLast trades : ℚ) / ((trades.length : ℚ) - 1))
       else none) := by
  intro trades
  show pctTradesAfterLoss trades = _
  unfold pctTradesAfterLoss
  by_cases h2 : (plNums trades).length ≥ 2
  · simp only [h2, if_true]
    unfold pctLoopCounters
    rw [pctLoop_lockstep trades.dropLast 0 0]
    simp only [Nat.zero_add]
    unfold lossesButLast
    by_cases hz : trades.dropLast.countP (fun t => isLoss t) = 0
    · simp [hz]
    · simp [hz]
  · simp [h2]

theorem length_filterMap_eq_countP {α β : Type} (f : α → Option β) (l : List α) :
    (l.filterMap f).length = l.countP (fun a => (f a).isSome) := by
  induction l with
  | nil => rfl
  | cons x l ih =>
      rw [List.filterMap_cons]
      cases hx : f x with
      | none => simp [hx, ih, List.countP_cons]
      | some b => simp [hx, ih, List.countP_cons]

theorem sizesOf_length_eq (trades : List Trade) :
    (sizesOf trades).length = trades.countP posNotionalb := by
  rw [sizesOf, length_filterMap_eq_countP]
  refine List.countP_congr ?_
  intro t _
  cases hn : t.notional with
  | none => simp [hn, posNotionalb]
  | some x =>
      by_cases hx : x > 0 <;> simp [hn, posNotionalb, hx]

/-- Claim C10: with no positive-finite-notional trade, `computeUserMetrics`
returns `avg_trade_size = 0` and `trade_size_variability = 0` (the number
zero — the fields are plain numbers, unlike the nullable
`pct_trades_after_loss` and `avg_holding_period_days`), and with exactly one
such trade `trade_size_variability` is likewise 0. -/
theorem claim_C10 : ∀ trades : List Trade,
    ((∀ t ∈ trades, posNotionalb t = false) →
      (computeUserMetrics trades).avg_trade_size = 0 ∧
      (computeUserMetrics trades).trade_size_variability = 0) ∧
    (trades.countP posNotionalb = 1 →
      (computeUserMetrics trades).trade_size_variability = 0) := by
  intro trades
  constructor
  · intro h
    have hnil : sizesOf trades = [] := by
      rw [sizesOf, List.filterMap_eq_nil_iff]
      intro t ht
      have hp := h t ht
      cases hn : t.notional with
      | none => simp [hn]
      | some x =>
          unfold posNotionalb at hp
          rw [hn] at hp
          simp only [decide_eq_false_iff_not] at hp
          simp [hn, hp]
    constructor
    · show mean (sizesOf trades) = 0
      rw [hnil]
      rfl
    · show stddev (sizesOf trades) = 0
      rw [hnil]
      simp [stddev]
  · intro h1
    show stddev (sizesOf trades) = 0
    have hlen : (sizesOf trades).length = 1 := by rw [sizesOf_length_eq]; exact h1
    simp [stddev, hlen]

theorem clampZ_bounds (x : ℤ) : 0 ≤ clampZ 0 x 100 ∧ clampZ 0 x 100 ≤ 100 :=
  ⟨le_max_left 0 _, max_le (by norm_num) (min_le_left _ _)⟩

theorem overtrading_bounds (trades : List Trade) :
    0 ≤ (computeBiases trades).overtrading.score ∧
      (computeBiases trades).overtrading.score ≤ 100 := by
  show 0 ≤ (overtradingResult trades).score ∧ (overtradingResult trades).score ≤ 100
  by_cases h0 : (dayCounts trades).length = 0
  · simp [overtradingResult, h0]
  · by_cases h1 : (dayCounts trades).length = 1
    · simp only [overtradingResult, h0, if_false, h1, if_true]
      exact clampZ_bounds _
    · simp only [overtradingResult, h0, if_false, h1]
      exact clampZ_bounds _

theorem revenge_bounds (trades : List Trade) :
    0 ≤ (computeBiases trades).revenge.score ∧
      (computeBiases trades).revenge.score ≤ 100 := by
  show 0 ≤ (revengeResult trades).score ∧ (revengeResult trades).score ≤ 100
  cases h : hasValidPLb trades with
  | false => simp [revengeResult, h]
  | true =>
      simp only [revengeResult, h, if_true]
      exact clampZ_bounds _

theorem lossAversion_bounds (trades : List Trade) :
    0 ≤ (computeBiases trades).lossAversion.score ∧
      (computeBiases trades).lossAversion.score ≤ 100 := by
  show 0 ≤ (lossAversionResult trades).score ∧ (lossAversionResult trades).score ≤ 100
  cases h : hasValidPLb trades with
  | false => simp [lossAversionResult, h]
  | true =>
      simp only [lossAversionResult, h, if_true]
      split_ifs <;> norm_num

theorem alignScoreVal_bounds (u v : Vec) :
    0 ≤ alignScoreVal u v ∧ alignScoreVal u v ≤ 100 := by
  unfold alignScoreVal jsRoundR
  set d := min 1 (Real.sqrt ((alignSumSq u v / 4 : ℚ) : ℝ)) with hd
  have hd0 : (0 : ℝ) ≤ d := le_min (by norm_num) (Real.sqrt_nonneg _)
  have hd1 : d ≤ 1 := min_le_left _ _
  constructor
  · rw [Int.le_floor]
    have h1 : (0 : ℝ) ≤ (1 - d) * 100 + 1/2 := by nlinarith
    exact_mod_cast h1
  · have h2 : ⌊(1 - d) * 100 + 1/2⌋ < (101 : ℤ) := by
      rw [Int.floor_lt]
      have h3 : (1 - d) * 100 + 1/2 < (101 : ℝ) := by nlinarith
      exact_mod_cast h3
    omega

theorem runningSums_aux (vals : List ℚ) : ∀ (a : ℚ) (out : List ℚ),
    (vals.foldl (fun st v => (st.1 + v, st.2 ++ [st.1 + v])) (a, out)).2.length =
      out.length + vals.length := by
  induction vals with
  | nil => intro a out; simp
  | cons v vals ih =>
      intro a out
      rw [List.foldl_cons]
      rw [ih]
      simp
      omega

theorem runningSums_length (vals : List ℚ) : (runningSums vals).length = vals.length := by
  unfold runningSums
  rw [runningSums_aux]
  simp

/-- Witness for C10: a sequence with only a negative and a missing notional,
and a sequence with exactly one positive notional. -/
theorem claim_C10_witness :
    (computeUserMetrics noPosEx).avg_trade_size = 0 ∧
    (computeUserMetrics noPosEx).trade_size_variability = 0 ∧
    (computeUserMetrics onePosEx).trade_size_variability = 0 :=
  ⟨((claim_C10 noPosEx).1 (by with_unfolding_all decide)).1,
   ((claim_C10 noPosEx).1 (by with_unfolding_all decide)).2,
   (claim_C10 onePosEx).2 (by with_unfolding_all decide)⟩

/-- Counterexample to C7 as stated: when the `trade_frequency` key is
missing from the user vector, the first `gaps` entry of `alignmentScore`
has `user = undefined` and `diff = undefined - 0 = NaN` (both modelled by
`none`), so a NaN does reach the output, contradicting the claim that no
output field is ever NaN. -/
theorem claim_C7_counterexample :
    (alignmentScore vecMissTF vecZ).gaps.map Gap.diff = [none, some 0, some 0, some 0] ∧
    (alignmentScore vecMissTF vecZ).gaps.map Gap.user = [none, some 0, some 0, some 0] := by
  with_unfolding_all decide

/-- Claim C7 (amended): the engine's scores are always defined integers in
[0, 100] (every division is guarded, so no NaN/Infinity reaches a score),
and every `gaps` field of `alignmentScore` is a defined finite number
whenever both input vectors carry all four dimension keys — the NaN escape
exists only in the gap entries for a key missing from an input vector. -/
theorem claim_C7_amended :
    (∀ u v : Vec, vecFull u = true → vecFull v = true →
      ((alignmentScore u v).gaps.all
        (fun g => g.user.isSome && g.target.isSome && g.diff.isSome)) = true) ∧
    (∀ u v : Vec, 0 ≤ (alignmentScore u v).score ∧ (alignmentScore u v).score ≤ 100) ∧
    (∀ trades : List Trade,
      (0 ≤ (computeBiases trades).overtrading.score ∧
        (computeBiases trades).overtrading.score ≤ 100) ∧
      (0 ≤ (computeBiases trades).revenge.score ∧
        (computeBiases trades).revenge.score ≤ 100) ∧
      (0 ≤ (computeBiases trades).lossAversion.score ∧
        (computeBiases trades).lossAversion.score ≤ 100)) := by
  refine ⟨?_, ?_, ?_⟩
  · intro u v hu hv
    unfold vecFull at hu hv
    simp only [Bool.and_eq_true, Option.isSome_iff_exists] at hu hv
    obtain ⟨⟨⟨⟨a, ha⟩, ⟨b, hb⟩⟩, ⟨c, hc⟩⟩, ⟨d, hd⟩⟩ := hu
    obtain ⟨⟨⟨⟨e, he⟩, ⟨f, hf⟩⟩, ⟨g, hg⟩⟩, ⟨k, hk⟩⟩ := hv
    show ((alignGaps u v).all _) = true
    simp [alignGaps, jsSub, ha, hb, hc, hd, he, hf, hg, hk]
  · intro u v
    exact alignScoreVal_bounds u v
  · intro trades
    exact ⟨overtrading_bounds trades, revenge_bounds trades, lossAversion_bounds trades⟩

/-- Witness for C7 (amended): with the full all-zero and all-one vectors,
every gap field is defined. -/
theorem claim_C7_witness :
    ((alignmentScore vecZ vecOne).gaps.all
      (fun g => g.user.isSome && g.target.isSome && g.diff.isSome)) = true :=
  claim_C7_amended.1 vecZ vecOne (by decide) (by decide)

/-- Counterexample to C8 as stated: neither `computeUserMetrics` nor
`computeBiases` sorts by timestamp, so their results are not invariant
under permutation of the caller's sequence.  Swapping the two BUY lots of a
ts-ascending list changes `avg_holding_period_days` from 20 to 10 (FIFO
consumes whichever lot comes first in caller order), and swapping the two
trades after a loss changes the revenge score from 100 to 0 (adjacency is
caller order, not time order). -/
theorem claim_C8_counterexample :
    List.Perm permHold1 permHold2 ∧
    List.Sorted (fun a b => a.ts.getD 0 ≤ b.ts.getD 0) permHold1 ∧
    (computeUserMetrics permHold1).avg_holding_period_days = some 20 ∧
    (computeUserMetrics permHold2).avg_holding_period_days = some 10 ∧
    List.Perm permRev1 permRev2 ∧
    List.Sorted (fun a b => a.ts.getD 0 ≤ b.ts.getD 0) permRev1 ∧
    (computeBiases permRev1).revenge.score = 100 ∧
    (computeBiases permRev2).revenge.score = 0 := by
  refine ⟨List.Perm.swap buyB buyA [sellC], ?_, ?_, ?_, List.Perm.cons lossT
    (List.Perm.swap lateT quickT []), ?_, ?_, ?_⟩ <;> with_unfolding_all decide

/-- Claim C8 (amended): the order-sensitive computations take the caller's
sequence order as given — there exist permutations of the same trade
multiset on which `computeUserMetrics` returns different
`avg_holding_period_days` and `computeBiases` returns different revenge
sub-results. -/
theorem claim_C8_amended :
    (∃ l l' : List Trade, List.Perm l l' ∧
      (computeUserMetrics l).avg_holding_period_days ≠
        (computeUserMetrics l').avg_holding_period_days) ∧
    (∃ l l' : List Trade, List.Perm l l' ∧
      (computeBiases l).revenge ≠ (computeBiases l').revenge) := by
  constructor
  · exact ⟨permHold1, permHold2, List.Perm.swap buyB buyA [sellC],
      by with_unfolding_all decide⟩
  · exact ⟨permRev1, permRev2, List.Perm.cons lossT (List.Perm.swap lateT quickT []),
      by with_unfolding_all decide⟩

/-- Counterexample to C9 as stated: `hasValidPL` tests whether SOME trade
has a finite `pl`, not whether a majority does — on a sequence where only 1
of 3 trades carries `pl` (a strict minority), `chartData` still reports
`hasPL = true`, uses `pl` as the per-trade value and shows the P/L label. -/
theorem claim_C9_counterexample :
    2 * trades9.countP (fun t => t.pl.isSome) < trades9.length ∧
    (chartData trades9).hasPL = true ∧
    (chartData trades9).timeline.map TimelinePoint.value = [5, 0, 0] ∧
    (chartData trades9).timelineLabel = "Trade P/L" := by
  with_unfolding_all decide

/-- Claim C9 (amended): for every trade sequence whose timestamps are all
valid, `chartData` uses `pl` as the per-trade value of the timeline and the
cumulative series exactly when at least one trade has a non-null finite
`pl` (reporting `hasPL = true` and the P/L labels), and uses `notional`
otherwise. -/
theorem claim_C9_amended : ∀ trades : List Trade, (∀ t ∈ trades, t.ts ≠ none) →
    (chartData trades).hasPL = hasValidPLb trades ∧
    (chartData trades).timeline.map TimelinePoint.value =
      trades.map
        (fun t => if hasValidPLb trades = true then t.pl.getD 0 else t.notional.getD 0) ∧
    (chartData trades).cumulativeSeries.map CumPoint.value =
      (runningSums ((sortedValid trades).map
        (fun t =>
          if hasValidPLb trades = true then t.pl.getD 0 else t.notional.getD 0))).map
        toFixed2 ∧
    (chartData trades).cumulativeLabel =
      (if hasValidPLb trades = true then ("Cumulative P/L") else ("Cumulative Trade Value")) ∧
    (chartData trades).timelineLabel =
      (if hasValidPLb trades = true then ("Trade P/L") else ("Trade Value")) := by
  intro trades hts
  refine ⟨rfl, ?_, ?_, rfl, rfl⟩
  · show ((trades.map fun t =>
      TimelinePoint.mk t.ts (chartValue (hasValidPLb trades) t) t.asset t.side).map
        TimelinePoint.value) = _
    rw [List.map_map]
    rfl
  · show ((((sortedValid trades).zip
        (runningSums ((sortedValid trades).map (chartValue (hasValidPLb trades))))).map
          (fun p => CumPoint.mk (p.1.ts.getD 0) (toFixed2 p.2))).map CumPoint.value) = _
    rw [List.map_map]
    have hlen : (runningSums
        ((sortedValid trades).map (chartValue (hasValidPLb trades)))).length ≤
        (sortedValid trades).length := by
      rw [runningSums_length, List.length_map]
    calc (((sortedValid trades).zip
          (runningSums ((sortedValid trades).map (chartValue (hasValidPLb trades))))).map
            (CumPoint.value ∘ fun p => CumPoint.mk (p.1.ts.getD 0) (toFixed2 p.2)))
        = (((sortedValid trades).zip
            (runningSums ((sortedValid trades).map (chartValue (hasValidPLb trades))))).map
              Prod.snd).map toFixed2 := by
          rw [List.map_map]
          exact rfl
      _ = (runningSums ((sortedValid trades).map (chartValue (hasValidPLb trades)))).map
            toFixed2 := by
          rw [List.map_snd_zip _ _ hlen]
      _ = _ := rfl

/-- Witness for C9 (amended): the three-trade sequence has valid
timestamps, so the amended claim applies to it. -/
theorem claim_C9_witness :
    (chartData trades9).hasPL = hasValidPLb trades9 ∧
    (chartData trades9).timeline.map TimelinePoint.value =
      trades9.map
        (fun t => if hasValidPLb trades9 = true then t.pl.getD 0 else t.notional.getD 0) :=
  ⟨(claim_C9_amended trades9 (by decide)).1, (claim_C9_amended trades9 (by decide)).2.1⟩

end QHacks
